import Mathlib

/-!
A verification development for the `multisig-check` toolchain: a Go
repository with four command-line tools (`cmd/gen`, `cmd/create-unsigned`,
`cmd/sign`, `cmd/verify-signed`) that build, sign and check a synthetic,
non-broadcastable P2WSH multisig transaction in order to prove possession
of an m-of-n key quorum.

The development shallowly embeds the repository's own code paths over
`List Nat` byte strings:

* SHA-256 is implemented in full (FIPS 180-4) because the prevout
  derivation (`sha256(PREVOUT_PREFIX || challenge)` versus
  `sha256(sha256 challenge)`) and the P2WSH witness program are genuine
  hash computations whose outputs the theorems compare.
* BIP32 derivation (btcd `hdkeychain`) is embedded over the discrete-log
  representation of secp256k1 points: a public key is represented by its
  scalar modulo the group order, so point addition of `il·G` to a parent
  key becomes modular addition of scalars.  HMAC-SHA512 and the point
  serialization are external primitives of the btcd library and appear as
  function parameters, so every theorem about derivation holds for all
  instantiations of them.
* The tools' `main`/`run` logic (path parsing, the unsigned-tx JSON
  agreement checks, signature collection, witness assembly, and the
  verifier pipeline) is translated statement by statement; Go `log.Fatalf`
  sites and runtime panics become `Except` errors.
-/

set_option maxRecDepth 20000

/- ## SHA-256 (FIPS 180-4) over byte lists, words as `Nat` mod `2 ^ 32` -/

/-- Rotate a 32-bit word (a `Nat` below `2 ^ 32`) right by `n` bits. -/
def rotr32 (n x : Nat) : Nat :=
  ((x >>> n) ||| (x <<< (32 - n))) % 2 ^ 32

/-- SHA-256 `Ch(x,y,z)`; `~x` is taken inside 32 bits via xor with the
all-ones word. -/
def sha256Ch (x y z : Nat) : Nat :=
  (x &&& y) ^^^ ((x ^^^ 0xffffffff) &&& z)

/-- SHA-256 `Maj(x,y,z)`. -/
def sha256Maj (x y z : Nat) : Nat :=
  (x &&& y) ^^^ (x &&& z) ^^^ (y &&& z)

/-- SHA-256 big sigma 0. -/
def bigSigma0 (x : Nat) : Nat :=
  rotr32 2 x ^^^ rotr32 13 x ^^^ rotr32 22 x

/-- SHA-256 big sigma 1. -/
def bigSigma1 (x : Nat) : Nat :=
  rotr32 6 x ^^^ rotr32 11 x ^^^ rotr32 25 x

/-- SHA-256 small sigma 0. -/
def smallSigma0 (x : Nat) : Nat :=
  rotr32 7 x ^^^ rotr32 18 x ^^^ (x >>> 3)

/-- SHA-256 small sigma 1. -/
def smallSigma1 (x : Nat) : Nat :=
  rotr32 17 x ^^^ rotr32 19 x ^^^ (x >>> 10)

/-- The 64 SHA-256 round constants. -/
def sha256K : List Nat :=
  [1116352408, 1899447441, 3049323471, 3921009573, 961987163,
   1508970993, 2453635748, 2870763221, 3624381080, 310598401,
   607225278, 1426881987, 1925078388, 2162078206, 2614888103,
   3248222580, 3835390401, 4022224774, 264347078, 604807628,
   770255983, 1249150122, 1555081692, 1996064986, 2554220882,
   2821834349, 2952996808, 3210313671, 3336571891, 3584528711,
   113926993, 338241895, 666307205, 773529912, 1294757372,
   1396182291, 1695183700, 1986661051, 2177026350, 2456956037,
   2730485921, 2820302411, 3259730800, 3345764771, 3516065817,
   3600352804, 4094571909, 275423344, 430227734, 506948616,
   659060556, 883997877, 958139571, 1322822218, 1537002063,
   1747873779, 1955562222, 2024104815, 2227730452, 2361852424,
   2428436474, 2756734187, 3204031479, 3329325298]

/-- The eight SHA-256 initial hash words. -/
def sha256H0 : List Nat :=
  [1779033703, 3144134277, 1013904242, 2773480762,
   1359893119, 2600822924, 528734635, 1541459225]

/-- Group a byte list into big-endian 32-bit words, four bytes per word. -/
def beWords32 : List Nat → List Nat
  | b0 :: b1 :: b2 :: b3 :: rest =>
      (b0 * 2 ^ 24 + b1 * 2 ^ 16 + b2 * 2 ^ 8 + b3) :: beWords32 rest
  | _ => []

/-- Big-endian bytes of a 32-bit word. -/
def be32 (x : Nat) : List Nat :=
  [x >>> 24 % 256, x >>> 16 % 256, x >>> 8 % 256, x % 256]

/-- Big-endian bytes of a 64-bit word. -/
def be64 (x : Nat) : List Nat :=
  [x >>> 56 % 256, x >>> 48 % 256, x >>> 40 % 256, x >>> 32 % 256,
   x >>> 24 % 256, x >>> 16 % 256, x >>> 8 % 256, x % 256]

/-- Extend a 16-word message block by `k` further schedule words. -/
def sha256Extend (w : List Nat) : Nat → List Nat
  | 0 => w
  | k + 1 =>
      let t := w.length
      sha256Extend
        (w ++ [(smallSigma1 (w.getD (t - 2) 0) + w.getD (t - 7) 0 +
                smallSigma0 (w.getD (t - 15) 0) + w.getD (t - 16) 0) % 2 ^ 32])
        k

/-- One SHA-256 compression round on the 8-word working state. -/
def sha256Round (st : List Nat) (kt wt : Nat) : List Nat :=
  match st with
  | [a, b, c, d, e, f, g, h] =>
      let t1 := (h + bigSigma1 e + sha256Ch e f g + kt + wt) % 2 ^ 32
      let t2 := (bigSigma0 a + sha256Maj a b c) % 2 ^ 32
      [(t1 + t2) % 2 ^ 32, a, b, c, (d + t1) % 2 ^ 32, e, f, g]
  | other => other

/-- Compress one 64-byte block into the running 8-word state. -/
def sha256Compress (st : List Nat) (block : List Nat) : List Nat :=
  let w := sha256Extend (beWords32 block) 48
  let fin := (List.zip sha256K w).foldl (fun s p => sha256Round s p.1 p.2) st
  List.zipWith (fun x y => (x + y) % 2 ^ 32) st fin

/-- Fold the compression over consecutive 64-byte blocks.  The first
argument is fuel (any bound on the number of blocks) so that the
definition is structurally recursive and kernel-reducible. -/
def sha256Blocks : Nat → List Nat → List Nat → List Nat
  | 0, st, _ => st
  | _ + 1, st, [] => st
  | fuel + 1, st, l => sha256Blocks fuel (sha256Compress st (l.take 64)) (l.drop 64)

/-- SHA-256 padding: `0x80`, zeros, then the 64-bit big-endian bit length,
to a multiple of 64 bytes. -/
def sha256Pad (msg : List Nat) : List Nat :=
  let l := msg.length
  msg ++ [0x80] ++ List.replicate ((64 - (l + 9) % 64) % 64) 0 ++ be64 (8 * l)

/-- SHA-256 of a byte list, as its 32 digest bytes. -/
def sha256 (msg : List Nat) : List Nat :=
  let padded := sha256Pad msg
  (sha256Blocks padded.length sha256H0 padded).flatMap be32

/- ## BIP32 derivation (btcd `hdkeychain`) in the discrete-log model

A secp256k1 public key `k·G` is represented by the scalar `k` modulo the
group order: the map `k ↦ k·G` is a bijection from scalars onto the group
generated by `G`, and the only group operation the derivation performs is
adding a point computed from a scalar (`il·G`) to the parent public key,
which becomes modular addition of scalars.  HMAC-SHA512 (`Hmac512Fn`,
returning the left half parsed as a 256-bit integer and the right half as
the child chain code) and compressed-point serialization (`SerPointFn`)
are external primitives of the btcd library and are taken as parameters:
the theorems below hold for every instantiation. -/

/-- The order of the secp256k1 group, `btcec.S256().N`. -/
def secpN : Nat :=
  0xfffffffffffffffffffffffffffffffebaaedce6af48a03bbfd25e8cd0364141

/-- `HMAC-SHA512(chainCode, data)` as `(parse256 of left half, right half)`. -/
abbrev Hmac512Fn := List Nat → List Nat → Nat × List Nat

/-- Compressed serialization of the point `k·G`, given `k % secpN`. -/
abbrev SerPointFn := Nat → List Nat

/-- First hardened child index, `hdkeychain.HardenedKeyStart`. -/
def hardenedKeyStart : Nat := 0x80000000

/-- Big-endian serialization of a 32-bit index, `ser32`. -/
def ser32 (i : Nat) : List Nat := be32 i

/-- The first `n` big-endian bytes of a value, most significant first. -/
def beBytes : Nat → Nat → List Nat
  | 0, _ => []
  | n + 1, v => beBytes n (v >>> 8) ++ [v % 256]

/-- 256-bit big-endian serialization of a private scalar, `ser256`. -/
def ser256 (k : Nat) : List Nat := beBytes 32 k

/-- An extended private key: scalar, chain code, depth (the parent
fingerprint and child number play no role in derivation and are
omitted). -/
structure ExtPrivKey where
  key : Nat
  chainCode : List Nat
  depth : Nat
deriving DecidableEq

/-- An extended public key, with the point in discrete-log representation. -/
structure ExtPubKey where
  pubKey : Nat
  chainCode : List Nat
  depth : Nat
deriving DecidableEq

/-- `ExtendedKey.Neuter`: drop the private material, keeping the chain
code and depth; the public key is the scalar reduced mod the order. -/
def neuter (k : ExtPrivKey) : ExtPubKey :=
  { pubKey := k.key % secpN, chainCode := k.chainCode, depth := k.depth }

/-- `hdkeychain.ExtendedKey.Derive` on a private extended key.  The data
for a hardened child is `0x00 || ser256(key) || ser32(i)`, otherwise
`serP(point(key)) || ser32(i)`; the child scalar is `il + key (mod N)`.
`il = 0` or `il ≥ N` is `ErrInvalidChild` (btcd does not detect the
measure-zero `il + key ≡ 0` case on the private branch, and neither does
this model). -/
def derivePrivChild (hm : Hmac512Fn) (serP : SerPointFn) (k : ExtPrivKey)
    (i : Nat) : Except String ExtPrivKey :=
  if 255 ≤ k.depth then
    .error "cannot derive a key with more than 255 indices in its path"
  else
    let data :=
      (if hardenedKeyStart ≤ i then 0 :: ser256 k.key
       else serP (k.key % secpN)) ++ ser32 i
    let r := hm k.chainCode data
    if secpN ≤ r.1 ∨ r.1 = 0 then
      .error "the extended key at this index is invalid"
    else
      .ok { key := (r.1 + k.key) % secpN, chainCode := r.2, depth := k.depth + 1 }

/-- `hdkeychain.ExtendedKey.Derive` on a neutered key: hardened children
are refused; the child point is `il·G + parent` (modular addition of the
discrete logs); a degenerate child point is surfaced as
`ErrInvalidChild`. -/
def derivePubChild (hm : Hmac512Fn) (serP : SerPointFn) (p : ExtPubKey)
    (i : Nat) : Except String ExtPubKey :=
  if 255 ≤ p.depth then
    .error "cannot derive a key with more than 255 indices in its path"
  else if hardenedKeyStart ≤ i then
    .error "cannot derive a hardened key from a public key"
  else
    let data := serP (p.pubKey % secpN) ++ ser32 i
    let r := hm p.chainCode data
    if secpN ≤ r.1 ∨ r.1 = 0 then
      .error "the extended key at this index is invalid"
    else if (r.1 + p.pubKey) % secpN = 0 then
      .error "the extended key at this index is invalid"
    else
      .ok { pubKey := (r.1 + p.pubKey) % secpN, chainCode := r.2,
            depth := p.depth + 1 }

/-- Segment-by-segment private derivation, as the tools' loops over
`extKey.Derive(i)`. -/
def derivePrivPath (hm : Hmac512Fn) (serP : SerPointFn) (k : ExtPrivKey) :
    List Nat → Except String ExtPrivKey
  | [] => .ok k
  | i :: rest => do
      let c ← derivePrivChild hm serP k i
      derivePrivPath hm serP c rest

/-- Segment-by-segment public derivation. -/
def derivePubPath (hm : Hmac512Fn) (serP : SerPointFn) (p : ExtPubKey) :
    List Nat → Except String ExtPubKey
  | [] => .ok p
  | i :: rest => do
      let c ← derivePubChild hm serP p i
      derivePubPath hm serP c rest

/-- `hdkeychain.NewMaster`: HMAC-SHA512 keyed with the string `Bitcoin
seed` over the seed; the seed length must be 16 to 64 bytes and the
resulting scalar must be a usable key. -/
def newMaster (hm : Hmac512Fn) (seed : List Nat) : Except String ExtPrivKey :=
  if seed.length < 16 ∨ 64 < seed.length then
    .error "seed length must be between 128 and 512 bits"
  else
    let r := hm ("Bitcoin seed".toList.map Char.toNat) seed
    if secpN ≤ r.1 ∨ r.1 = 0 then .error "unusable seed"
    else .ok { key := r.1, chainCode := r.2, depth := 0 }

/- ## The threshold script builder (txscript) -/

/-- Little-endian bytes of a value, least significant first, with fuel
(9 bytes covers every 64-bit script number). -/
def leBytes : Nat → Nat → List Nat
  | 0, _ => []
  | fuel + 1, v => if v = 0 then [] else v % 256 :: leBytes fuel (v / 256)

/-- `scriptNum` serialization of a non-negative value: little-endian with
a zero sign byte appended when the top bit of the last byte is set. -/
def scriptNumEnc (v : Nat) : List Nat :=
  let b := leBytes 9 v
  if b = [] then []
  else if 0x80 ≤ b.getLastD 0 then b ++ [0]
  else b

/-- `ScriptBuilder.AddData`: the canonical (smallest) push of a data
blob.  `OP_PUSHDATA4` (data beyond 65535 bytes) is not modeled. -/
def canonicalPush (data : List Nat) : List Nat :=
  if data.length = 0 ∨ (data.length = 1 ∧ data.headD 0 = 0) then [0]
  else if data.length = 1 ∧ data.headD 0 ≤ 16 then [80 + data.headD 0]
  else if data.length = 1 ∧ data.headD 0 = 0x81 then [79]
  else if data.length ≤ 75 then data.length :: data
  else if data.length ≤ 0xff then [76, data.length] ++ data
  else [77, data.length % 256, data.length / 256 % 256] ++ data

/-- `ScriptBuilder.AddInt64` for the non-negative values the multisig
builder uses: `OP_0`, `OP_1` through `OP_16`, else a `scriptNum` push. -/
def addInt64 (v : Nat) : List Nat :=
  if v = 0 then [0]
  else if v ≤ 16 then [80 + v]
  else canonicalPush (scriptNumEnc v)

/-- `txscript.MultiSigScript(pubKeys, m)`: `OP_m <key pushes> OP_n
OP_CHECKMULTISIG` (174), refusing `m` above the number of keys.  Keys are
pushed in the callers' order; the builder never reorders or deduplicates
them. -/
def multiSigScript (m : Nat) (keys : List (List Nat)) : Except String (List Nat) :=
  if keys.length < m then .error "too many required signatures"
  else .ok (addInt64 m ++ keys.flatMap canonicalPush ++ addInt64 keys.length ++ [174])

/-- `txscript.PayToAddrScript` on a P2WSH address: `OP_0` then the push of
the 32-byte witness program. -/
def p2wshPkScript (prog : List Nat) : List Nat :=
  0 :: canonicalPush prog

/- ## The challenge-binding transaction builder (cmd/create-unsigned) -/

/-- The fixed domain-separation constant `PREVOUT_PREFIX`, the bytes of
the Go literal `[]byte("txid random prefix")`. -/
def PREVOUT_PREFIX : List Nat :=
  "txid random prefix".toList.map Char.toNat

/-- The synthetic prevout txid of cmd/create-unsigned (and of the variant
that writes the unsigned-tx JSON files): a single SHA-256 of the domain
prefix followed by the challenge bytes. -/
def bindChallenge (c : List Nat) : List Nat :=
  sha256 (PREVOUT_PREFIX ++ c)

/-- The prevout txid of the other variant in the repository: a double
SHA-256 of the raw challenge with no prefix. -/
def bindChallengeDouble (c : List Nat) : List Nat :=
  sha256 (sha256 c)

/-- A transaction outpoint: previous txid bytes and output index. -/
structure OutPoint where
  hash : List Nat
  index : Nat
deriving DecidableEq

/-- A transaction input: its outpoint and witness stack. -/
structure TxIn where
  previousOutPoint : OutPoint
  witness : List (List Nat)
deriving DecidableEq

/-- A transaction output: value in satoshis and locking script. -/
structure TxOut where
  value : Int
  pkScript : List Nat
deriving DecidableEq

/-- A transaction skeleton: the input and output lists (version and lock
time are constants that play no role in the claims). -/
structure MsgTx where
  txIn : List TxIn
  txOut : List TxOut
deriving DecidableEq

/-- The proof-transaction skeleton built by `run`: one input whose
outpoint is `(bindChallenge c, 0)`, one output paying the fixed dummy
amount 1000 to the P2WSH script of the redeem script's hash. -/
def buildProofTx (challenge redeemScript : List Nat) : MsgTx :=
  { txIn := [{ previousOutPoint := { hash := bindChallenge challenge, index := 0 },
               witness := [] }],
    txOut := [{ value := 1000, pkScript := p2wshPkScript (sha256 redeemScript) }] }

/- ## Derivation path parsing (cmd/create-unsigned `parseDerivationPath`) -/

/-- The whitespace `fmt.Sscanf` skips before a `%d` verb (for `Sscanf`
a newline is not a space; exotic Unicode spaces are not modeled). -/
def goScanSpace (c : Char) : Bool := c == ' ' || c == '\t'

/-- The value of a decimal digit string. -/
def digitsVal (ds : List Char) : Nat :=
  ds.foldl (fun acc c => 10 * acc + (c.toNat - 48)) 0

/-- `fmt.Sscanf(s, "%d", &i)` with `i : uint32`: skip leading spaces,
read the maximal run of decimal digits (no sign is accepted for an
unsigned verb), fail when there is none or the value overflows 32 bits —
and ignore whatever trails the number, because `Sscanf` never requires
the input to be fully consumed. -/
def scanUint32Dec (s : List Char) : Option Nat :=
  let t := s.dropWhile goScanSpace
  let ds := t.takeWhile Char.isDigit
  if ds.isEmpty then none
  else if digitsVal ds < 2 ^ 32 then some (digitsVal ds)
  else none

/-- `strings.Split(s, "/")` on a character list. -/
def splitSlash : List Char → List (List Char)
  | [] => [[]]
  | c :: rest =>
      if c = '/' then [] :: splitSlash rest
      else
        match splitSlash rest with
        | seg :: segs => (c :: seg) :: segs
        | [] => [[c]]

/-- One loop iteration of `parseDerivationPath`: scan the segment,
turning a scan failure into the tool's error. -/
def scanSegment (s : List Char) : Except String Nat :=
  match scanUint32Dec s with
  | some i => Except.ok i
  | none => Except.error "invalid path segment"

/-- `parseDerivationPath`: refuse the empty path, split on `/`, scan each
segment with `Sscanf "%d"` into a `uint32`. -/
def parseDerivationPath (path : String) : Except String (List Nat) :=
  if path = "" then .error "empty derivation path"
  else (splitSlash path.toList).mapM scanSegment

/-- Spec-side acceptance predicate for one segment, used to characterize
the parser: after leading spaces the segment starts with a decimal digit
and its maximal digit prefix fits in 32 bits (nothing constrains what
follows the digits). -/
def segGood (s : List Char) : Bool :=
  let t := s.dropWhile goScanSpace
  (t.headD ' ').isDigit && decide (digitsVal (t.takeWhile Char.isDigit) < 2 ^ 32)

/- ## The two address pipelines: cmd/gen and cmd/create-unsigned -/

/-- `ECPubKey().SerializeCompressed()` of a derived extended private key,
in the discrete-log model. -/
def ecPubKeyBytes (serP : SerPointFn) (k : ExtPrivKey) : List Nat :=
  serP (k.key % secpN)

/-- The public-key bytes `cmd/gen deriveKeyData` feeds `MultiSigScript`:
master from the seed, private derivation along the path, serialized
public key. -/
def genPubKeyBytes (hm : Hmac512Fn) (serP : SerPointFn) (seed : List Nat)
    (path : List Nat) : Except String (List Nat) := do
  let master ← newMaster hm seed
  let k ← derivePrivPath hm serP master path
  pure (ecPubKeyBytes serP k)

/-- The P2WSH address `cmd/gen run` prints: multisig script over the
derived keys in order, SHA-256 witness program, address encoding (the
bech32 encoding is an external primitive, passed as `enc`). -/
def genAddress (hm : Hmac512Fn) (serP : SerPointFn) (enc : List Nat → String)
    (seed : List Nat) (paths : List (List Nat)) (m : Nat) :
    Except String String := do
  let ks ← paths.mapM (genPubKeyBytes hm serP seed)
  let script ← multiSigScript m ks
  pure (enc (sha256 script))

/-- The public-key bytes `cmd/create-unsigned run` computes for one
xpubs.json entry: public derivation from the extended public key along
the parsed path, then serialization. -/
def xpubPubKeyBytes (hm : Hmac512Fn) (serP : SerPointFn) (xpub : ExtPubKey)
    (path : List Nat) : Except String (List Nat) := do
  let k ← derivePubPath hm serP xpub path
  pure (serP (k.pubKey % secpN))

/-- The P2WSH address `cmd/create-unsigned` recomputes from public data
only: same script construction and hashing over the publicly derived
keys. -/
def recomputedAddress (hm : Hmac512Fn) (serP : SerPointFn)
    (enc : List Nat → String) (xpub : ExtPubKey) (paths : List (List Nat))
    (m : Nat) : Except String String := do
  let ks ← paths.mapM (xpubPubKeyBytes hm serP xpub)
  let script ← multiSigScript m ks
  pure (enc (sha256 script))

/-- `cmd/create-unsigned run`, end to end: parse each entry's path,
derive its public key from its xpub, build the multisig redeem script,
check the derived address against the expected one, then build the
challenge-bound transaction skeleton.  File I/O and hex decoding are the
tool's external boundary and the challenge arrives as bytes. -/
def createUnsignedRun (hm : Hmac512Fn) (serP : SerPointFn)
    (enc : List Nat → String) (addressStr : String) (challenge : List Nat)
    (xpubs : List (ExtPubKey × String)) (m : Nat) :
    Except String (MsgTx × List Nat) := do
  let ks ← xpubs.mapM fun x => do
    let path ← parseDerivationPath x.2
    xpubPubKeyBytes hm serP x.1 path
  let redeemScript ← multiSigScript m ks
  if enc (sha256 redeemScript) ≠ addressStr then
    .error "address mismatch"
  else
    pure (buildProofTx challenge redeemScript, redeemScript)

/- ## The signer (cmd/sign) -/

/-- One privkeys.json entry, cmd/sign `PrivData`. -/
structure PrivRecord where
  privKeyWIF : String
  path : String
deriving DecidableEq

/-- One unsigned-tx JSON record, the `JSON` struct: derivation path, the
transaction bytes and redeem script as transport-encoded strings, and
the input amounts. -/
structure TxRecord where
  path : String
  tx : String
  vinValues : List Int
  scriptSigs : List String
deriving DecidableEq

/-- The abort sites of cmd/sign main: the five `log.Fatalf` checks of the
file-agreement loop, and the runtime index-out-of-range panic of the
witness-building loop. -/
inductive SignError where
  | txMismatch
  | noScriptSigs
  | scriptSigMismatch
  | noVin
  | amountMismatch
  | indexOutOfRangePanic
deriving DecidableEq

/-- The agreement loop of cmd/sign main over the supplied files, with the
running `rawTxHex`/`redeemHex`/`amountSats` state (each starts at its
zero value, which the guards treat as "unset"). -/
def checkTxLoop : List TxRecord → String → String → Int →
    Except SignError (String × String × Int)
  | [], rawTxHex, redeemHex, amountSats => .ok (rawTxHex, redeemHex, amountSats)
  | j :: rest, rawTxHex, redeemHex, amountSats =>
      if rawTxHex ≠ "" ∧ rawTxHex ≠ j.tx then .error .txMismatch
      else if j.scriptSigs.length ≠ 1 then .error .noScriptSigs
      else if redeemHex ≠ "" ∧ redeemHex ≠ j.scriptSigs.headD "" then
        .error .scriptSigMismatch
      else if j.vinValues.length ≠ 1 then .error .noVin
      else if amountSats ≠ 0 ∧ amountSats ≠ j.vinValues.headD 0 then
        .error .amountMismatch
      else checkTxLoop rest j.tx (j.scriptSigs.headD "") (j.vinValues.headD 0)

/-- The whole agreement check, from the zero-valued running state. -/
def checkTxFiles (txJson : List TxRecord) : Except SignError (String × String × Int) :=
  checkTxLoop txJson "" "" 0

/-- Signature collection: for each supplied record, the first private-key
entry whose path matches signs (the inner loop's `continue`/`break`); a
record with no match contributes nothing and raises no error here.  The
signing call itself (`RawTxInWitnessSignature` over the decoded WIF key)
is the external signer `sf`. -/
def collectSigs (sf : PrivRecord → List Nat) (privs : List PrivRecord) :
    List TxRecord → List (List Nat)
  | [] => []
  | j :: rest =>
      match privs.find? (fun p => p.path == j.path) with
      | some p => sf p :: collectSigs sf privs rest
      | none => collectSigs sf privs rest

/-- Witness assembly: the empty dummy element, then `sigs[i]` for each
supplied record index `i`, then the redeem script.  When some record went
unmatched `sigs` is shorter than the loop bound and the Go code panics
with an index-out-of-range runtime error, modeled as the dedicated
`SignError`. -/
def assembleWitness (sf : PrivRecord → List Nat) (privs : List PrivRecord)
    (txJson : List TxRecord) (redeemScript : List Nat) :
    Except SignError (List (List Nat)) :=
  let sigs := collectSigs sf privs txJson
  if sigs.length < txJson.length then .error .indexOutOfRangePanic
  else .ok (([] : List Nat) :: (sigs.take txJson.length ++ [redeemScript]))

/-- The signature a record resolves to (the first matching private key,
or the empty string when none matches — used only to state results about
fully matched assemblies). -/
def resolvedSig (sf : PrivRecord → List Nat) (privs : List PrivRecord)
    (j : TxRecord) : List Nat :=
  match privs.find? (fun p => p.path == j.path) with
  | some p => sf p
  | none => []

/-- cmd/sign main end to end: agreement checks over the supplied files,
then signature collection and witness assembly.  `sf` is the external
signing primitive, receiving the amount and redeem script the tool passes
to `RawTxInWitnessSignature`; `dec64` the external base64 decoder. -/
def signerRun (sf : Int → List Nat → PrivRecord → List Nat)
    (dec64 : String → List Nat) (txJson : List TxRecord)
    (privs : List PrivRecord) : Except SignError (List (List Nat)) := do
  let r ← checkTxFiles txJson
  let redeemScript := dec64 r.2.1
  assembleWitness (sf r.2.2 redeemScript) privs txJson redeemScript

/-- The unsigned-tx record `createJson` writes for one signer slot: the
path, the encoded transaction, the fixed `[1000]` input amount, and the
encoded redeem script (`enc64` is the external base64 encoder). -/
def createJsonRecord (enc64 : List Nat → String) (path : String)
    (txBytes redeemScript : List Nat) : TxRecord :=
  { path := path, tx := enc64 txBytes, vinValues := [1000],
    scriptSigs := [enc64 redeemScript] }

/-- A record none of whose compared fields is the loop's "unset" sentinel:
nonempty tx string, exactly one nonempty redeem string, exactly one
nonzero amount. -/
def recordWellFormed (j : TxRecord) : Bool :=
  (j.tx != "") && (j.scriptSigs.length == 1) && (j.scriptSigs.headD "" != "") &&
  (j.vinValues.length == 1) && (j.vinValues.headD 0 != 0)

/- ## The verifier (cmd/verify-signed) -/

/-- The complete flag set of cmd/verify-signed main: the signed
transaction hex, the P2WSH address, and the prevout amount.  There is no
challenge flag. -/
structure VerifyArgs where
  txHex : String
  address : String
  amountSats : Int
deriving DecidableEq

/-- The verifier's failure exits: transaction decode failure, the runtime
panic on a no-input transaction, scriptPubKey construction failure, and
script-engine rejection. -/
inductive VerifyError where
  | decodeError
  | runtimePanicNoInputs
  | scriptPubKeyError
  | engineError
deriving DecidableEq

/-- cmd/verify-signed main: decode the transaction, derive the
scriptPubKey from the address, run the script engine.  `dec` is the
external wire codec, `spk` the external address decoder
(`getScriptPubKeyFromAddress`), `engine` the external txscript engine.
main dereferences `tx.TxIn[0]` (to print the witness) before its
`len(tx.TxIn) == 0` check, so a no-input transaction dies with the
runtime panic and the explicit check is unreachable. -/
def verifySigned (dec : String → Option MsgTx) (spk : String → Option (List Nat))
    (engine : List Nat → MsgTx → Int → Bool) (a : VerifyArgs) :
    Except VerifyError Unit :=
  match dec a.txHex with
  | none => .error .decodeError
  | some tx =>
      if tx.txIn.length = 0 then .error .runtimePanicNoInputs
      else
        match spk a.address with
        | none => .error .scriptPubKeyError
        | some spkBytes =>
            if engine spkBytes tx a.amountSats then .ok () else .error .engineError

/-- The verifier as a function of the proof session's challenge: the
tool's command line is exactly `VerifyArgs`, with no challenge parameter,
so this wrapper adds the session challenge as a formal argument in order
to state that the verdict does not depend on it. -/
def verifySignedWithChallenge (dec : String → Option MsgTx)
    (spk : String → Option (List Nat)) (engine : List Nat → MsgTx → Int → Bool)
    (a : VerifyArgs) (challenge : List Nat) : Except VerifyError Unit :=
  verifySigned dec spk engine a

/-- A concrete decoded transaction whose declared input reference is the
single byte 0, which no challenge binds to (every synthetic reference is
a 32-byte digest). -/
def mismatchTx : MsgTx :=
  { txIn := [{ previousOutPoint := { hash := [0], index := 0 },
               witness := [[], [1], [2], [3]] }],
    txOut := [] }

/-- Three distinct 33-byte compressed-size key blobs for concrete
counterexamples. -/
def exampleKeys : List (List Nat) :=
  [List.replicate 33 2, List.replicate 33 3, List.replicate 33 4]

/-- The threshold-2 redeem script over `exampleKeys`. -/
def exampleRS : List Nat :=
  (multiSigScript 2 exampleKeys).toOption.getD []

/- ## Helper lemmas -/

/-- Bind on an error short-circuits (definitional). -/
@[simp] theorem error_bind {E A B : Type} {e : E} {f : A → Except E B} :
    (Except.error e >>= f) = Except.error e := rfl

/-- Bind on a success applies the continuation (definitional). -/
@[simp] theorem ok_bind {E A B : Type} {a : A} {f : A → Except E B} :
    (Except.ok a >>= f) = f a := rfl

/-- Decidable equality for `Except`, so concrete runs can be settled by
`decide`. -/
instance {E A : Type} [DecidableEq E] [DecidableEq A] : DecidableEq (Except E A) := fun
  | .error a, .error b =>
      if h : a = b then .isTrue (h ▸ rfl)
      else .isFalse fun he => h (Except.error.inj he)
  | .ok a, .ok b =>
      if h : a = b then .isTrue (h ▸ rfl)
      else .isFalse fun he => h (Except.ok.inj he)
  | .error _, .ok _ => .isFalse Except.noConfusion
  | .ok _, .error _ => .isFalse Except.noConfusion

/-- FIPS 180-4 test vector: the digest of the empty message. -/
theorem sha256_nil :
    sha256 [] =
      [227, 176, 196, 66, 152, 252, 28, 20, 154, 251, 244, 200, 153, 111,
       185, 36, 39, 174, 65, 228, 100, 155, 147, 76, 164, 149, 153, 27,
       120, 82, 184, 85] := by decide

/-- FIPS 180-4 test vector: the digest of the three bytes of `abc`. -/
theorem sha256_abc :
    sha256 [97, 98, 99] =
      [186, 120, 22, 191, 143, 1, 207, 234, 65, 65, 64, 222, 93, 174, 34,
       35, 176, 3, 97, 163, 150, 23, 122, 156, 180, 16, 255, 97, 242, 0,
       21, 173] := by decide

/-- One-step commutation of neutering and derivation: when deriving the
neutered key succeeds, deriving the private key succeeds and neuters to
the same extended public key. -/
theorem derivePubChild_commute (hm : Hmac512Fn) (serP : SerPointFn)
    (k : ExtPrivKey) (i : Nat) (p : ExtPubKey)
    (h : derivePubChild hm serP (neuter k) i = .ok p) :
    ∃ k2, derivePrivChild hm serP k i = .ok k2 ∧ neuter k2 = p := by
  unfold derivePubChild neuter at h
  unfold derivePrivChild
  simp only at h
  rw [Nat.mod_mod_of_dvd _ dvd_rfl] at h
  by_cases hd : 255 ≤ k.depth
  · simp [hd] at h
  · simp only [hd, if_false] at h ⊢
    by_cases hh : hardenedKeyStart ≤ i
    · simp [hh] at h
    · simp only [hh, if_false] at h ⊢
      set r := hm k.chainCode (serP (k.key % secpN) ++ ser32 i) with hr
      by_cases hil : secpN ≤ r.1 ∨ r.1 = 0
      · simp [hil] at h
      · simp only [hil, if_false] at h ⊢
        by_cases hinf : (r.1 + k.key % secpN) % secpN = 0
        · simp [hinf] at h
        · simp only [hinf, if_false] at h
          refine ⟨_, rfl, ?_⟩
          simp only [Except.ok.injEq] at h
          subst h
          simp [neuter, Nat.mod_mod_of_dvd _ dvd_rfl, Nat.add_mod_mod]

/-- Path-level commutation of neutering and derivation. -/
theorem derivePubPath_commute (hm : Hmac512Fn) (serP : SerPointFn)
    (k : ExtPrivKey) (path : List Nat) (p : ExtPubKey)
    (h : derivePubPath hm serP (neuter k) path = .ok p) :
    ∃ k2, derivePrivPath hm serP k path = .ok k2 ∧ neuter k2 = p := by
  induction path generalizing k with
  | nil =>
      refine ⟨k, rfl, ?_⟩
      simpa [derivePubPath] using h
  | cons i rest ih =>
      unfold derivePubPath at h
      unfold derivePrivPath
      cases hc : derivePubChild hm serP (neuter k) i with
      | error e => rw [hc] at h; simp at h
      | ok q =>
          rw [hc] at h
          simp only [ok_bind] at h
          obtain ⟨k2, hk2, hneu⟩ := derivePubChild_commute hm serP k i q hc
          rw [← hneu] at h
          obtain ⟨k3, hk3, hneu3⟩ := ih k2 h
          exact ⟨k3, by simp [hk2, hk3, ok_bind], hneu3⟩

/-- A key the builder recomputes from the neutered master equals the key
gen derives from the private master. -/
theorem pubKeyBytes_commute (hm : Hmac512Fn) (serP : SerPointFn)
    (seed : List Nat) (mk : ExtPrivKey) (path : List Nat) (b : List Nat)
    (hmk : newMaster hm seed = .ok mk)
    (hb : xpubPubKeyBytes hm serP (neuter mk) path = .ok b) :
    genPubKeyBytes hm serP seed path = .ok b := by
  unfold xpubPubKeyBytes at hb
  unfold genPubKeyBytes
  cases hp : derivePubPath hm serP (neuter mk) path with
  | error e => rw [hp] at hb; simp at hb
  | ok q =>
      rw [hp] at hb
      simp only [ok_bind] at hb
      obtain ⟨k2, hk2, hneu⟩ := derivePubPath_commute hm serP mk path q hp
      rw [hmk]
      simp only [ok_bind, hk2, ecPubKeyBytes]
      rw [← hneu] at hb
      simpa [neuter, Nat.mod_mod_of_dvd _ dvd_rfl] using hb

/-- Lists of recomputed keys agree with the gen-derived ones. -/
theorem pubKeyList_commute (hm : Hmac512Fn) (serP : SerPointFn)
    (seed : List Nat) (mk : ExtPrivKey)
    (hmk : newMaster hm seed = .ok mk) :
    ∀ (paths : List (List Nat)) (bs : List (List Nat)),
      paths.mapM (xpubPubKeyBytes hm serP (neuter mk)) = .ok bs →
      paths.mapM (genPubKeyBytes hm serP seed) = .ok bs := by
  intro paths
  induction paths with
  | nil => intro bs hb; simpa [List.mapM_nil] using hb
  | cons p rest ih =>
      intro bs hb
      rw [List.mapM_cons] at hb ⊢
      cases h1 : xpubPubKeyBytes hm serP (neuter mk) p with
      | error e => rw [h1] at hb; simp at hb
      | ok b =>
          rw [h1] at hb
          simp only [ok_bind] at hb
          rw [pubKeyBytes_commute hm serP seed mk p b hmk h1]
          simp only [ok_bind]
          cases h2 : rest.mapM (xpubPubKeyBytes hm serP (neuter mk)) with
          | error e => rw [h2] at hb; simp at hb
          | ok bs2 =>
              rw [h2] at hb
              rw [ih bs2 h2]
              simpa using hb

/-- The collected signatures never outnumber the supplied records. -/
theorem collectSigs_le (sf : PrivRecord → List Nat) (privs : List PrivRecord)
    (txJson : List TxRecord) :
    (collectSigs sf privs txJson).length ≤ txJson.length := by
  induction txJson with
  | nil => simp [collectSigs]
  | cons j rest ih =>
      unfold collectSigs
      cases privs.find? (fun p => p.path == j.path) with
      | none => simpa using Nat.le_succ_of_le ih
      | some p => simpa using ih

/-- When every record's path matches some private key, the collected
signatures are the records' resolved signatures in supply order. -/
theorem collectSigs_all_matched (sf : PrivRecord → List Nat)
    (privs : List PrivRecord) (txJson : List TxRecord)
    (h : ∀ j ∈ txJson, ((privs.find? fun p => p.path == j.path)).isSome = true) :
    collectSigs sf privs txJson = txJson.map (resolvedSig sf privs) := by
  induction txJson with
  | nil => simp [collectSigs]
  | cons j rest ih =>
      have hj := h j (by simp)
      unfold collectSigs
      cases hf : privs.find? (fun p => p.path == j.path) with
      | none => rw [hf] at hj; simp at hj
      | some p =>
          simp only [List.map_cons, resolvedSig, hf]
          rw [ih fun j hj => h j (by simp [hj])]

/-- An unmatched record makes the collected signatures strictly fewer
than the records. -/
theorem collectSigs_lt (sf : PrivRecord → List Nat) (privs : List PrivRecord)
    (txJson : List TxRecord)
    (h : ∃ j ∈ txJson, (privs.find? fun p => p.path == j.path) = none) :
    (collectSigs sf privs txJson).length < txJson.length := by
  induction txJson with
  | nil => simp at h
  | cons j rest ih =>
      unfold collectSigs
      obtain ⟨j0, hj0, hnone⟩ := h
      rcases List.mem_cons.mp hj0 with rfl | hmem
      · rw [hnone]
        exact Nat.lt_succ_of_le (collectSigs_le sf privs rest)
      · cases hf : privs.find? (fun p => p.path == j.path) with
        | none =>
            exact Nat.lt_succ_of_le (collectSigs_le sf privs rest)
        | some p =>
            simpa using ih ⟨j0, hmem, hnone⟩

/-- All-matched assembly: the stack is the dummy, the supply-ordered
resolved signatures, then the script. -/
theorem assembleWitness_resolved (sf : PrivRecord → List Nat)
    (privs : List PrivRecord) (txJson : List TxRecord) (rs : List Nat)
    (h : ∀ j ∈ txJson, ((privs.find? fun p => p.path == j.path)).isSome = true) :
    assembleWitness sf privs txJson rs =
      .ok (([] : List Nat) :: (txJson.map (resolvedSig sf privs) ++ [rs])) := by
  unfold assembleWitness
  rw [collectSigs_all_matched sf privs txJson h]
  simp

/-- The agreement loop accepts a list of records that all equal the
running state, and returns that state. -/
theorem checkTxLoop_uniform (s r : String) (a : Int) (l : List TxRecord)
    (h : ∀ j ∈ l, j.tx = s ∧ j.scriptSigs = [r] ∧ j.vinValues = [a]) :
    checkTxLoop l s r a = .ok (s, r, a) := by
  induction l with
  | nil => rfl
  | cons j rest ih =>
      obtain ⟨htx, hsc, hvin⟩ := h j (by simp)
      unfold checkTxLoop
      rw [htx, hsc, hvin]
      simp only [List.headD, List.length_cons, List.length_nil]
      rw [if_neg (by simp)]
      rw [if_neg (by simp)]
      rw [if_neg (by simp)]
      rw [if_neg (by simp)]
      rw [if_neg (by simp)]
      exact ih fun j hj => h j (by simp [hj])

/-- A length-1 list is the singleton of its default head. -/
theorem eq_singleton_headD {α : Type} (l : List α) (d : α)
    (h : l.length = 1) : l = [l.headD d] := by
  cases l with
  | nil => simp at h
  | cons x rest =>
      cases rest with
      | nil => rfl
      | cons y t => simp at h

/-- With a sentinel-free running state, the agreement loop succeeds
exactly on record lists that agree with that state, and preserves it. -/
theorem checkTxLoop_wellformed (t r : String) (a : Int)
    (ht : t ≠ "") (hr : r ≠ "") (ha : a ≠ 0) (l : List TxRecord)
    (v : String × String × Int) :
    checkTxLoop l t r a = .ok v ↔
      ((∀ j ∈ l, j.tx = t ∧ j.scriptSigs = [r] ∧ j.vinValues = [a]) ∧
        v = (t, r, a)) := by
  induction l with
  | nil =>
      simp only [checkTxLoop, Except.ok.injEq, List.not_mem_nil]
      constructor
      · intro h; exact ⟨by simp, h.symm⟩
      · intro h; exact h.2.symm
  | cons j rest ih =>
      constructor
      · intro h
        unfold checkTxLoop at h
        by_cases h1 : t ≠ "" ∧ t ≠ j.tx
        · rw [if_pos h1] at h; simp at h
        · rw [if_neg h1] at h
          have htx : j.tx = t := by
            by_contra hc
            exact h1 ⟨ht, fun he => hc he.symm⟩
          by_cases h2 : j.scriptSigs.length ≠ 1
          · rw [if_pos h2] at h; simp at h
          · rw [if_neg h2] at h
            have hlen2 : j.scriptSigs.length = 1 := by omega
            by_cases h3 : r ≠ "" ∧ r ≠ j.scriptSigs.headD ""
            · rw [if_pos h3] at h; simp at h
            · rw [if_neg h3] at h
              have hhead : j.scriptSigs.headD "" = r := by
                by_contra hc
                exact h3 ⟨hr, fun he => hc he.symm⟩
              have hsc : j.scriptSigs = [r] := by
                rw [← hhead]
                exact eq_singleton_headD _ _ hlen2
              by_cases h4 : j.vinValues.length ≠ 1
              · rw [if_pos h4] at h; simp at h
              · rw [if_neg h4] at h
                have hlen4 : j.vinValues.length = 1 := by omega
                by_cases h5 : a ≠ 0 ∧ a ≠ j.vinValues.headD 0
                · rw [if_pos h5] at h; simp at h
                · rw [if_neg h5] at h
                  have hvhead : j.vinValues.headD 0 = a := by
                    by_contra hc
                    exact h5 ⟨ha, fun he => hc he.symm⟩
                  have hvin : j.vinValues = [a] := by
                    rw [← hvhead]
                    exact eq_singleton_headD _ _ hlen4
                  rw [htx, hhead, hvhead] at h
                  obtain ⟨hall, hv⟩ := ih.mp h
                  refine ⟨?_, hv⟩
                  intro x hx
                  rcases List.mem_cons.mp hx with rfl | hmem
                  · exact ⟨htx, hsc, hvin⟩
                  · exact hall x hmem
      · rintro ⟨hall, rfl⟩
        obtain ⟨htx, hsc, hvin⟩ := hall j (by simp)
        unfold checkTxLoop
        rw [htx, hsc, hvin]
        simp only [List.headD, List.length_cons, List.length_nil]
        rw [if_neg (by simp)]
        rw [if_neg (by simp)]
        rw [if_neg (by simp)]
        rw [if_neg (by simp)]
        rw [if_neg (by simp)]
        exact checkTxLoop_uniform t r a rest fun x hx => hall x (by simp [hx])

/-- A successful agreement check implies every record carried exactly one
redeem script and exactly one amount. -/
theorem checkTxLoop_ok_lengths (l : List TxRecord) :
    ∀ (t r : String) (a : Int) (v : String × String × Int),
      checkTxLoop l t r a = .ok v →
      ∀ j ∈ l, j.scriptSigs.length = 1 ∧ j.vinValues.length = 1 := by
  induction l with
  | nil => intro t r a v h j hj; simp at hj
  | cons j0 rest ih =>
      intro t r a v h j hj
      unfold checkTxLoop at h
      by_cases h1 : t ≠ "" ∧ t ≠ j0.tx
      · rw [if_pos h1] at h; simp at h
      · rw [if_neg h1] at h
        by_cases h2 : j0.scriptSigs.length ≠ 1
        · rw [if_pos h2] at h; simp at h
        · rw [if_neg h2] at h
          by_cases h3 : r ≠ "" ∧ r ≠ j0.scriptSigs.headD ""
          · rw [if_pos h3] at h; simp at h
          · rw [if_neg h3] at h
            by_cases h4 : j0.vinValues.length ≠ 1
            · rw [if_pos h4] at h; simp at h
            · rw [if_neg h4] at h
              by_cases h5 : a ≠ 0 ∧ a ≠ j0.vinValues.headD 0
              · rw [if_pos h5] at h; simp at h
              · rw [if_neg h5] at h
                rcases List.mem_cons.mp hj with rfl | hmem
                · exact ⟨by omega, by omega⟩
                · exact ih _ _ _ _ h j hmem

/-- Scanning a segment succeeds exactly on the acceptance predicate. -/
theorem scanUint32Dec_isSome (s : List Char) :
    (scanUint32Dec s).isSome = segGood s := by
  unfold scanUint32Dec segGood
  cases ht : s.dropWhile goScanSpace with
  | nil => simp
  | cons c rest =>
      by_cases hc : c.isDigit
      · simp only [List.takeWhile_cons, hc, List.headD]
        by_cases hv : digitsVal (c :: List.takeWhile Char.isDigit rest) < 4294967296
        · simp [hv, List.takeWhile_cons, hc]
        · simp [hv, List.takeWhile_cons, hc]
      · simp [List.takeWhile_cons, hc, List.headD]

/-- Mapping the scanner over all segments succeeds exactly when every
segment is accepted. -/
theorem mapM_scanSegment_ok (segs : List (List Char)) :
    (∃ l, segs.mapM scanSegment = .ok l) ↔ ∀ s ∈ segs, segGood s = true := by
  induction segs with
  | nil => simp [List.mapM_nil]; exact ⟨[], rfl⟩
  | cons s rest ih =>
      rw [List.mapM_cons]
      constructor
      · rintro ⟨l, hl⟩
        cases hs : scanSegment s with
        | error e => rw [hs] at hl; simp at hl
        | ok i =>
            rw [hs] at hl
            simp only [ok_bind] at hl
            cases hr : rest.mapM scanSegment with
            | error e => rw [hr] at hl; simp at hl
            | ok l2 =>
                intro x hx
                rcases List.mem_cons.mp hx with rfl | hmem
                · rw [← scanUint32Dec_isSome]
                  unfold scanSegment at hs
                  cases hss : scanUint32Dec x with
                  | none => rw [hss] at hs; simp at hs
                  | some v => simp [hss]
                · exact (ih.mp ⟨l2, hr⟩) x hmem
      · intro hall
        have hg : segGood s = true := hall s (by simp)
        rw [← scanUint32Dec_isSome] at hg
        cases hss : scanUint32Dec s with
        | none => rw [hss] at hg; simp at hg
        | some v =>
            have hseg : scanSegment s = .ok v := by unfold scanSegment; rw [hss]
            rw [hseg]
            simp only [ok_bind]
            obtain ⟨l2, hl2⟩ := ih.mpr fun x hx => hall x (by simp [hx])
            rw [hl2]
            exact ⟨v :: l2, rfl⟩

/- ## The claims -/

/-- Claim C1 (code bug in the verifier): the claim says every verification
run recomputes the SyntheticPriorReference from a supplied 32-byte
challenge, compares it to the transaction's declared input reference, and
fails with a challenge mismatch on a different challenge.  The embedded
cmd/verify-signed takes no challenge at all — `VerifyArgs` is its complete
flag set — so its verdict is a constant function of the session challenge,
and a run can accept a transaction whose declared input reference differs
from the synthetic reference of any 32-byte challenge, as the concrete
conjunct shows with an always-accepting engine. -/
theorem verify_signed_ignores_challenge :
    (∀ (dec : String → Option MsgTx) (spk : String → Option (List Nat))
        (engine : List Nat → MsgTx → Int → Bool) (a : VerifyArgs)
        (c c2 : List Nat),
      verifySignedWithChallenge dec spk engine a c =
        verifySignedWithChallenge dec spk engine a c2) ∧
    (∀ (dec : String → Option MsgTx) (spk : String → Option (List Nat))
        (engine : List Nat → MsgTx → Int → Bool) (a : VerifyArgs)
        (c : List Nat),
      verifySignedWithChallenge dec spk engine a c = verifySigned dec spk engine a) ∧
    (verifySigned (fun _ => some mismatchTx) (fun _ => some [0])
        (fun _ _ _ => true)
        { txHex := "tx", address := "addr", amountSats := 1000 } = .ok () ∧
      mismatchTx.txIn.map (fun i => i.previousOutPoint.hash) = [[0]] ∧
      [0] ≠ bindChallenge (List.replicate 32 0)) :=
  ⟨fun _ _ _ _ _ _ => rfl, fun _ _ _ _ _ => rfl, by decide, by decide, by decide⟩

/-- Claim C2 (address agreement): for the same master key material, the
same ordered derivation paths and the same threshold, the P2WSH address
cmd/gen derives from private key material equals the address
cmd/create-unsigned independently recomputes from the neutered master
(the xpub) and the paths alone — for every HMAC-SHA512, every point
serialization and every address encoding. -/
theorem address_agreement (hm : Hmac512Fn) (serP : SerPointFn)
    (enc : List Nat → String) (seed : List Nat) (paths : List (List Nat))
    (m : Nat) (mk : ExtPrivKey) (a a2 : String)
    (hmk : newMaster hm seed = .ok mk)
    (hv : recomputedAddress hm serP enc (neuter mk) paths m = .ok a)
    (hg : genAddress hm serP enc seed paths m = .ok a2) :
    a = a2 := by
  unfold recomputedAddress at hv
  unfold genAddress at hg
  cases h1 : paths.mapM (xpubPubKeyBytes hm serP (neuter mk)) with
  | error e => rw [h1] at hv; simp at hv
  | ok ks =>
      rw [h1] at hv
      rw [pubKeyList_commute hm serP seed mk hmk paths ks h1] at hg
      simp only [ok_bind] at hv hg
      cases h2 : multiSigScript m ks with
      | error e => rw [h2] at hv; simp at hv
      | ok s =>
          rw [h2] at hv hg
          simp only [ok_bind] at hv hg
          cases hv; cases hg; rfl

/-- Witness for C2: both pipelines run to completion on a concrete
16-byte seed, one single-segment path and threshold 1, and agree. -/
theorem address_agreement_witness :
    recomputedAddress (fun _ _ => (1, [0])) (fun n => [n % 256]) (fun _ => "addr")
        (neuter { key := 1, chainCode := [0], depth := 0 }) [[0]] 1 = .ok "addr" ∧
    genAddress (fun _ _ => (1, [0])) (fun n => [n % 256]) (fun _ => "addr")
        (List.replicate 16 0) [[0]] 1 = .ok "addr" ∧
    ("addr" : String) = "addr" :=
  ⟨by decide, by decide,
    address_agreement (fun _ _ => (1, [0])) (fun n => [n % 256]) (fun _ => "addr")
      (List.replicate 16 0) [[0]] 1 { key := 1, chainCode := [0], depth := 0 }
      "addr" "addr" (by decide) (by decide) (by decide)⟩

/-- Claim C3 (challenge binding): the builder's transaction has as its
only input the outpoint `(sha256(PREVOUT_PREFIX || challenge), 0)`, the
synthetic prior reference is exactly that single domain-separated hash,
and the computation is deterministic: equal challenges give equal
references. -/
theorem challenge_binding_prevout (c rs c2 : List Nat) (hdet : c = c2) :
    (buildProofTx c rs).txIn =
      [{ previousOutPoint := { hash := sha256 (PREVOUT_PREFIX ++ c), index := 0 },
         witness := [] }] ∧
    (buildProofTx c rs).txIn.map (fun i => i.previousOutPoint.index) = [0] ∧
    bindChallenge c = sha256 (PREVOUT_PREFIX ++ c) ∧
    bindChallenge c = bindChallenge c2 := by
  subst hdet
  exact ⟨rfl, rfl, rfl, rfl⟩

/-- Witness for C3 at the one-byte challenge 7. -/
theorem challenge_binding_prevout_witness :
    (buildProofTx [7] [9]).txIn =
      [{ previousOutPoint := { hash := sha256 (PREVOUT_PREFIX ++ [7]), index := 0 },
         witness := [] }] ∧
    (buildProofTx [7] [9]).txIn.map (fun i => i.previousOutPoint.index) = [0] ∧
    bindChallenge [7] = sha256 (PREVOUT_PREFIX ++ [7]) ∧
    bindChallenge [7] = bindChallenge [7] :=
  challenge_binding_prevout [7] [9] [7] rfl

/-- Counterexample to claim C4 as stated: with the threshold-2 redeem
script over three keys, assembling from a single supplied record (whose
path matches a private key) succeeds with a stack of length 3, not
`m + 2 = 4`, and raises no error — the assembler never checks the
signature count against the script's threshold. -/
theorem short_stack_counterexample :
    multiSigScript 2 exampleKeys = .ok exampleRS ∧
    assembleWitness (fun _ => [1]) [{ privKeyWIF := "w", path := "0/0" }]
        [{ path := "0/0", tx := "T", vinValues := [1000], scriptSigs := ["R"] }]
        exampleRS =
      .ok [[], [1], exampleRS] ∧
    ([[], [1], exampleRS] : List (List Nat)).length = 3 ∧
    ¬ ([[], [1], exampleRS] : List (List Nat)).length = 2 + 2 :=
  ⟨by decide, by decide, by decide, by decide⟩

/-- Claim C4 as amended: when every supplied record's path matches a
private key, the assembled stack has length (number of supplied
records) + 2 — one dummy, one signature per record, the script — which
equals `m + 2` exactly when `m` records are supplied; no comparison with
the script's threshold is performed. -/
theorem assemble_stack_length_amended (sf : PrivRecord → List Nat)
    (privs : List PrivRecord) (txJson : List TxRecord) (rs : List Nat)
    (h : ∀ j ∈ txJson, ((privs.find? fun p => p.path == j.path)).isSome = true) :
    ∃ w, assembleWitness sf privs txJson rs = .ok w ∧
      w.length = txJson.length + 2 := by
  refine ⟨_, assembleWitness_resolved sf privs txJson rs h, ?_⟩
  simp

/-- Witness for the amended C4 at one matched record. -/
theorem assemble_stack_length_amended_witness :
    ∃ w, assembleWitness (fun _ => [5]) [{ privKeyWIF := "w", path := "0/1" }]
        [{ path := "0/1", tx := "T", vinValues := [1000], scriptSigs := ["R"] }]
        [9] = .ok w ∧ w.length = 1 + 2 :=
  assemble_stack_length_amended (fun _ => [5]) [{ privKeyWIF := "w", path := "0/1" }]
    [{ path := "0/1", tx := "T", vinValues := [1000], scriptSigs := ["R"] }] [9]
    (by decide)

/-- Counterexample to claim C5 as stated: a record whose derivation path
has no matching private-key entry does not produce a structured
unresolved-signer error naming the path — collection silently skips the
record and assembly dies with the runtime index-out-of-range panic, a
failure mode (`SignError.indexOutOfRangePanic`) that carries no path; no
constructor of the tool's failure type carries one. -/
theorem unresolved_signer_panic_counterexample :
    assembleWitness (fun _ => [1]) []
        [{ path := "0/0", tx := "T", vinValues := [1000], scriptSigs := ["R"] }]
        [9] = .error .indexOutOfRangePanic := by decide

/-- Claim C5 as amended: whenever some supplied record's path matches no
private-key entry, witness assembly fails with the index-out-of-range
runtime panic (never a structured error naming the unmatched path). -/
theorem unresolved_signer_panics_amended (sf : PrivRecord → List Nat)
    (privs : List PrivRecord) (txJson : List TxRecord) (rs : List Nat)
    (h : ∃ j ∈ txJson, (privs.find? fun p => p.path == j.path) = none) :
    assembleWitness sf privs txJson rs = .error .indexOutOfRangePanic := by
  unfold assembleWitness
  rw [if_pos (collectSigs_lt sf privs txJson h)]

/-- Witness for the amended C5: one record at path 0/3, one key at
path 0/9. -/
theorem unresolved_signer_panics_amended_witness :
    assembleWitness (fun _ => [2]) [{ privKeyWIF := "w", path := "0/9" }]
        [{ path := "0/3", tx := "T", vinValues := [1000], scriptSigs := ["R"] }]
        [8] = .error .indexOutOfRangePanic :=
  unresolved_signer_panics_amended (fun _ => [2])
    [{ privKeyWIF := "w", path := "0/9" }]
    [{ path := "0/3", tx := "T", vinValues := [1000], scriptSigs := ["R"] }] [8]
    ⟨{ path := "0/3", tx := "T", vinValues := [1000], scriptSigs := ["R"] },
      by decide, by decide⟩

/-- Counterexample to claim C6 as stated: the same two records supplied
in the two orders yield stacks with the two signatures swapped, so the
signature order is the supply order of the unsigned-tx files, not an
order recovered from the script — contradicting independence from the
supply order. -/
theorem supply_order_counterexample :
    assembleWitness (fun p => if p.path == "0/0" then [10] else [11])
        [{ privKeyWIF := "wa", path := "0/0" }, { privKeyWIF := "wb", path := "0/1" }]
        [{ path := "0/0", tx := "T", vinValues := [1000], scriptSigs := ["R"] },
         { path := "0/1", tx := "T", vinValues := [1000], scriptSigs := ["R"] }]
        [9] = .ok [[], [10], [11], [9]] ∧
    assembleWitness (fun p => if p.path == "0/0" then [10] else [11])
        [{ privKeyWIF := "wa", path := "0/0" }, { privKeyWIF := "wb", path := "0/1" }]
        [{ path := "0/1", tx := "T", vinValues := [1000], scriptSigs := ["R"] },
         { path := "0/0", tx := "T", vinValues := [1000], scriptSigs := ["R"] }]
        [9] = .ok [[], [11], [10], [9]] ∧
    ([[], [10], [11], [9]] : List (List Nat)) ≠ [[], [11], [10], [9]] :=
  ⟨by decide, by decide, by decide⟩

/-- Claim C6 as amended: in a fully matched assembly the stack is the
dummy element, then for each supplied record — in supply order — the
signature of the first private key whose path matches it, then the
script; the assembler performs no reordering into the script's key
order. -/
theorem witness_stack_supply_order_amended (sf : PrivRecord → List Nat)
    (privs : List PrivRecord) (txJson : List TxRecord) (rs : List Nat)
    (h : ∀ j ∈ txJson, ((privs.find? fun p => p.path == j.path)).isSome = true) :
    assembleWitness sf privs txJson rs =
      .ok (([] : List Nat) :: (txJson.map (resolvedSig sf privs) ++ [rs])) :=
  assembleWitness_resolved sf privs txJson rs h

/-- Witness for the amended C6 with two records supplied out of key
order. -/
theorem witness_stack_supply_order_amended_witness :
    assembleWitness (fun p => if p.path == "0/0" then [10] else [11])
        [{ privKeyWIF := "wa", path := "0/0" }, { privKeyWIF := "wb", path := "0/1" }]
        [{ path := "0/1", tx := "T", vinValues := [1000], scriptSigs := ["R"] },
         { path := "0/0", tx := "T", vinValues := [1000], scriptSigs := ["R"] }]
        [9] =
      .ok (([] : List Nat) ::
        ([{ path := "0/1", tx := "T", vinValues := [1000], scriptSigs := ["R"] },
          { path := "0/0", tx := "T", vinValues := [1000], scriptSigs := ["R"] }].map
            (resolvedSig (fun p => if p.path == "0/0" then [10] else [11])
              [{ privKeyWIF := "wa", path := "0/0" },
               { privKeyWIF := "wb", path := "0/1" }]) ++ [[9]])) :=
  witness_stack_supply_order_amended
    (fun p => if p.path == "0/0" then [10] else [11])
    [{ privKeyWIF := "wa", path := "0/0" }, { privKeyWIF := "wb", path := "0/1" }]
    [{ path := "0/1", tx := "T", vinValues := [1000], scriptSigs := ["R"] },
     { path := "0/0", tx := "T", vinValues := [1000], scriptSigs := ["R"] }] [9]
    (by decide)

/-- Claim C7: the two prevout-derivation variants in the repository —
single SHA-256 of `PREVOUT_PREFIX || challenge` versus double SHA-256 of
the raw challenge — produce different synthetic references at the
all-zero 32-byte challenge (the concrete digests of both schemes are
exhibited), so they are not interchangeable. -/
theorem prevout_variants_differ :
    bindChallenge (List.replicate 32 0) =
      [130, 13, 53, 148, 210, 21, 41, 165, 196, 147, 130, 161, 162, 140, 31,
       249, 117, 80, 246, 46, 198, 207, 97, 228, 116, 38, 117, 180, 66, 72,
       149, 198] ∧
    bindChallengeDouble (List.replicate 32 0) =
      [43, 50, 219, 108, 44, 10, 98, 53, 251, 19, 151, 232, 34, 94, 168, 94,
       15, 14, 110, 140, 123, 18, 109, 0, 22, 204, 189, 224, 230, 103, 21, 30] ∧
    bindChallenge (List.replicate 32 0) ≠ bindChallengeDouble (List.replicate 32 0) :=
  ⟨by decide, by decide, by decide⟩

/-- Counterexample to claim C8 as stated: the segment `12abc` is not a
non-negative decimal number, yet the parser silently accepts it as 12 —
`fmt.Sscanf "%d"` ignores whatever trails the number. -/
theorem trailing_garbage_counterexample :
    parseDerivationPath "12abc" = .ok [12] ∧
    ¬ (∀ ch ∈ "12abc".toList, ch.isDigit = true) :=
  ⟨by decide, by decide⟩

/-- Claim C8 as amended: parsing succeeds exactly on a nonempty path all
of whose slash-separated segments begin (after optional spaces) with a
decimal digit whose maximal digit run fits in 32 bits; in particular the
empty path, empty segments and digit-free segments are rejected, but
trailing garbage after the digits is silently ignored. -/
theorem parseDerivationPath_characterization (path : String) :
    (∃ l, parseDerivationPath path = .ok l) ↔
      (path ≠ "" ∧ ∀ s ∈ splitSlash path.toList, segGood s = true) := by
  unfold parseDerivationPath
  by_cases hp : path = ""
  · simp [hp]
  · rw [if_neg hp]
    rw [mapM_scanSegment_ok]
    simp [hp]

/-- Claim C9: the built proof transaction has exactly one input (the
synthetic reference at index 0) and exactly one output paying the
nominal 1000 to the P2WSH script; every per-signer record carries
`[1000]`; the signer's agreement check over the builder's records yields
amount 1000; and the assembled signatures are computed by the signing
primitive at amount 1000. -/
theorem nominal_amount_consistency (enc64 : List Nat → String)
    (ser : MsgTx → List Nat) (c rs : List Nat) (p0 : String)
    (rest : List String) :
    (buildProofTx c rs).txIn.length = 1 ∧
    (buildProofTx c rs).txIn.map (fun i => i.previousOutPoint) =
      [{ hash := bindChallenge c, index := 0 }] ∧
    (buildProofTx c rs).txOut =
      [{ value := 1000, pkScript := p2wshPkScript (sha256 rs) }] ∧
    (∀ p : String,
      (createJsonRecord enc64 p (ser (buildProofTx c rs)) rs).vinValues = [1000]) ∧
    checkTxFiles ((p0 :: rest).map fun p =>
        createJsonRecord enc64 p (ser (buildProofTx c rs)) rs) =
      .ok (enc64 (ser (buildProofTx c rs)), enc64 rs, 1000) ∧
    (∀ (sf : Int → List Nat → PrivRecord → List Nat) (dec64 : String → List Nat)
        (privs : List PrivRecord),
      (∀ p ∈ p0 :: rest, ((privs.find? fun q => q.path == p)).isSome = true) →
      signerRun sf dec64
          ((p0 :: rest).map fun p =>
            createJsonRecord enc64 p (ser (buildProofTx c rs)) rs) privs =
        .ok (([] : List Nat) ::
          (((p0 :: rest).map fun p =>
              createJsonRecord enc64 p (ser (buildProofTx c rs)) rs).map
            (resolvedSig (sf 1000 (dec64 (enc64 rs))) privs) ++ [dec64 (enc64 rs)]))) := by
  have hcheck : checkTxFiles ((p0 :: rest).map fun p =>
      createJsonRecord enc64 p (ser (buildProofTx c rs)) rs) =
      .ok (enc64 (ser (buildProofTx c rs)), enc64 rs, 1000) := by
    unfold checkTxFiles
    simp only [List.map_cons]
    have hstep : checkTxLoop
        (createJsonRecord enc64 p0 (ser (buildProofTx c rs)) rs ::
          rest.map fun p => createJsonRecord enc64 p (ser (buildProofTx c rs)) rs)
        "" "" 0 =
        checkTxLoop (rest.map fun p => createJsonRecord enc64 p (ser (buildProofTx c rs)) rs)
          (enc64 (ser (buildProofTx c rs))) (enc64 rs) 1000 := by
      simp only [checkTxLoop]
      rw [if_neg (by simp)]
      rw [if_neg (by simp [createJsonRecord])]
      rw [if_neg (by simp)]
      rw [if_neg (by simp [createJsonRecord])]
      rw [if_neg (by simp)]
      rfl
    rw [hstep]
    apply checkTxLoop_uniform
    intro j hj
    obtain ⟨p, hp, rfl⟩ := List.mem_map.mp hj
    exact ⟨rfl, rfl, rfl⟩
  refine ⟨rfl, rfl, rfl, fun p => rfl, hcheck, ?_⟩
  intro sf dec64 privs hmatch
  unfold signerRun
  rw [hcheck]
  simp only [ok_bind]
  apply assembleWitness_resolved
  intro j hj
  obtain ⟨p, hp, rfl⟩ := List.mem_map.mp hj
  exact hmatch p hp

/-- Counterexample to claim C10 as stated: two files that disagree on the
input amount (`[0]` versus `[5]`) pass the agreement checks, because a
zero running amount is treated as "unset" and compared against nothing;
signing would proceed with amount 5. -/
theorem sentinel_amount_counterexample :
    checkTxFiles
        [{ path := "0/0", tx := "TX", vinValues := [0], scriptSigs := ["RS"] },
         { path := "0/1", tx := "TX", vinValues := [5], scriptSigs := ["RS"] }] =
      .ok ("TX", "RS", 5) ∧
    ({ path := "0/0", tx := "TX", vinValues := [0], scriptSigs := ["RS"] } :
        TxRecord).vinValues ≠
      ({ path := "0/1", tx := "TX", vinValues := [5], scriptSigs := ["RS"] } :
        TxRecord).vinValues :=
  ⟨by decide, by decide⟩

/-- Claim C10 as amended: a successful run of the agreement checks
guarantees every file carried exactly one redeem script and exactly one
amount; and over files free of the sentinel values (empty tx, empty
redeem, zero amount) the checks succeed exactly when all files agree
with the first on transaction, redeem script and amount.  Disagreements
masked by a sentinel (see the counterexample) are the one exception the
original claim missed. -/
theorem check_tx_files_agreement_amended :
    (∀ (txJson : List TxRecord) (v : String × String × Int),
      checkTxFiles txJson = .ok v →
      ∀ j ∈ txJson, j.scriptSigs.length = 1 ∧ j.vinValues.length = 1) ∧
    (∀ (j0 : TxRecord) (rest : List TxRecord),
      recordWellFormed j0 = true →
      (checkTxFiles (j0 :: rest) =
          .ok (j0.tx, j0.scriptSigs.headD "", j0.vinValues.headD 0) ↔
        ∀ j ∈ rest, j.tx = j0.tx ∧ j.scriptSigs = j0.scriptSigs ∧
          j.vinValues = j0.vinValues)) := by
  constructor
  · intro txJson v h
    exact checkTxLoop_ok_lengths txJson "" "" 0 v h
  · intro j0 rest hwf0
    simp only [recordWellFormed, Bool.and_eq_true, bne_iff_ne, beq_iff_eq,
      ne_eq] at hwf0
    obtain ⟨⟨⟨⟨htx, hlen⟩, hhead⟩, hvlen⟩, hvhead⟩ := hwf0
    have hsc0 : j0.scriptSigs = [j0.scriptSigs.headD ""] :=
      eq_singleton_headD _ _ hlen
    have hvin0 : j0.vinValues = [j0.vinValues.headD 0] :=
      eq_singleton_headD _ _ hvlen
    have hstep : checkTxFiles (j0 :: rest) =
        checkTxLoop rest j0.tx (j0.scriptSigs.headD "") (j0.vinValues.headD 0) := by
      simp only [checkTxFiles, checkTxLoop]
      rw [if_neg (by simp)]
      rw [if_neg (by simp [hlen])]
      rw [if_neg (by simp)]
      rw [if_neg (by simp [hvlen])]
      rw [if_neg (by simp)]
    rw [hstep, checkTxLoop_wellformed _ _ _ htx hhead hvhead rest _]
    rw [← hsc0, ← hvin0]
    simp
